import Mathlib

/-!
Shallow embedding of `src/nelpy/objects.py` (classes `EpochArray` and
`SpikeTrain`).  Raw sample coordinates and time coordinates are modelled as
rationals (`ℚ`); numpy arrays of shape `(n, 2)` become `List (ℚ × ℚ)`,
1-D arrays become `List ℚ`.  Python exceptions become `Except Err`.
`np.argsort` on the start column is modelled as a deterministic stable sort
(insertion sort); the spec (§4.1) describes the construction sort as a stable
sort on the start coordinate.
-/

deriving instance DecidableEq for Except

namespace Nelpy

/-- Python exception kinds raised by the source, with their messages. -/
inductive Err where
  | typeError (msg : String)
  | valueError (msg : String)
  | indexError
deriving DecidableEq, Repr

/-- Argument passed as `fs`: absent, a numeric scalar, or a non-scalar value
(anything for which the comparison `fs <= 0` itself raises `TypeError`,
e.g. a list or a string). -/
inductive FsArg where
  | noFs
  | scalar (q : ℚ)
  | nonScalar
deriving DecidableEq, Repr

/-- The `fs` validation block of `EpochArray.__init__` (objects.py lines
53-59) and `SpikeTrain.__init__` (lines 553-559):

    try:
        if fs <= 0:
            raise ValueError("sampling rate must be positive")
    except:
        raise TypeError("sampling rate must be a scalar")

For a scalar `fs <= 0` the `ValueError` raised inside the `try` block is
caught by the bare `except`, which re-raises `TypeError`; for a non-scalar
the comparison raises `TypeError`, also caught, and the same `TypeError`
is raised. -/
def checkFsArg : FsArg → Except Err Unit
  | .noFs => .ok ()
  | .scalar q =>
      if q ≤ 0 then .error (.typeError "sampling rate must be a scalar")
      else .ok ()
  | .nonScalar => .error (.typeError "sampling rate must be a scalar")

/-- The same check specialised to the scalar-or-absent arguments the rest of
the embedding passes around. -/
def checkFsOpt (fs : Option ℚ) : Except Err Unit :=
  match fs with
  | none => .ok ()
  | some q => checkFsArg (.scalar q)

/-- The state of a constructed `EpochArray`: raw sample pairs, derived time
pairs (`samples / fs` when `fs` is set, otherwise equal to `samples`), and
the stored sampling rate `_fs`. -/
structure EpochArray where
  samples : List (ℚ × ℚ)
  time : List (ℚ × ℚ)
  fs : Option ℚ
deriving DecidableEq, Repr

/-- The canonical empty `EpochArray` (objects.py lines 37-42): empty arrays
and `_fs = None`, bypassing all validation. -/
def emptyEpoch : EpochArray := ⟨[], [], none⟩

/-- Comparison used by the construction sort: ascending start coordinate
(`np.argsort(samples[:, 0])`, objects.py line 98). -/
def leStart (p q : ℚ × ℚ) : Prop := p.1 ≤ q.1

instance : DecidableRel leStart :=
  fun p q => inferInstanceAs (Decidable (p.1 ≤ q.1))

instance : IsTotal (ℚ × ℚ) leStart := ⟨fun p q => le_total p.1 q.1⟩

instance : IsTrans (ℚ × ℚ) leStart := ⟨fun _ _ _ h h' => le_trans h h'⟩

/-- `samples = samples[np.argsort(samples[:, 0])]` (objects.py lines 98-99),
modelled as a deterministic stable sort on the start coordinate. -/
def sortByStart (l : List (ℚ × ℚ)) : List (ℚ × ℚ) :=
  l.insertionSort leStart

/-- `self.time = samples / fs` when `fs` is given, else `self.time =
self.samples` (objects.py lines 102-107). -/
def applyFs (fs : Option ℚ) (l : List (ℚ × ℚ)) : List (ℚ × ℚ) :=
  match fs with
  | none => l
  | some f => l.map (fun p => (p.1 / f, p.2 / f))

/-- `EpochArray.__init__` on an `(n, 2)` start/stop matrix with no
`duration` (objects.py lines 34-110): empty input short-circuits to the
empty array; otherwise the `fs` check runs, any pair with `stop < start`
raises `ValueError` (line 94-95), and the surviving pairs are sorted by
start.  (For `n = 1` numpy's `squeeze` reduces the input to a 1-D pair and
lines 80-85 reconstitute the same single `(start, stop)` pair, so the net
transformation is the identity on the pair list, as modelled here.) -/
def epochFromPairs (pairs : List (ℚ × ℚ)) (fs : Option ℚ) :
    Except Err EpochArray :=
  if pairs = [] then .ok emptyEpoch
  else
    match checkFsOpt fs with
    | .error e => .error e
    | .ok _ =>
      if pairs.all (fun p => decide (p.1 ≤ p.2)) then
        .ok ⟨sortByStart pairs, applyFs fs (sortByStart pairs), fs⟩
      else .error (.valueError "start must be less than or equal to stop")

/-- `EpochArray.__init__` on a 1-D vector of samples with `duration=None`
(objects.py lines 80-85).  Line 81 turns the vector into an `(n, 1)` array;
line 83's shape test fires (`shape[1] == 1 != 2`) and line 84 builds
`hstack((samples[0], samples[1]))`: the first two *rows* of the `(n, 1)`
array, i.e. the single pair `(xs[0], xs[1])`.  A length-1 vector makes
`samples[1]` raise `IndexError`.  Validation and the sort then run on that
single pair. -/
def epochFrom1D (xs : List ℚ) (fs : Option ℚ) : Except Err EpochArray :=
  match xs with
  | [] => .ok emptyEpoch
  | [_] =>
      (match checkFsOpt fs with
       | .error e => .error e
       | .ok _ => .error .indexError)
  | x0 :: x1 :: _ =>
      match checkFsOpt fs with
      | .error e => .error e
      | .ok _ =>
        if x1 < x0 then
          .error (.valueError "start must be less than or equal to stop")
        else
          .ok ⟨sortByStart [(x0, x1)], applyFs fs (sortByStart [(x0, x1)]),
               fs⟩

/-- `EpochArray.__init__` on a 1-D vector of starts together with a 1-D
`duration` (objects.py lines 61-78): a duration vector with more than one
element must match the number of starts (lines 70-73); `stop = start +
duration` broadcasts a single duration over all starts (numpy semantics of
line 76); mismatched empty duration would fail to broadcast.  The resulting
`(n, 2)` pairs then fall through to the same validation/sort tail as the
pair-matrix path (objects.py lines 83-110), shared here via
`epochFromPairs`. -/
def epochFromStartsDurs (starts durs : List ℚ) (fs : Option ℚ) :
    Except Err EpochArray :=
  if starts = [] then .ok emptyEpoch
  else
    match checkFsOpt fs with
    | .error e => .error e
    | .ok _ =>
      if 1 < durs.length ∧ starts.length ≠ durs.length then
        .error (.valueError "must have same number of time and duration samples")
      else if durs = [] then
        .error (.valueError "operands could not be broadcast together")
      else
        epochFromPairs
          (starts.zip (if durs.length = 1
            then starts.map (fun s => s + durs.getD 0 0)
            else List.zipWith (fun s d => s + d) starts durs)) fs

/-- `EpochArray.isempty` (objects.py lines 277-284): `len(self.time) == 0`. -/
def EpochArray.isempty (e : EpochArray) : Bool := e.time = []

/-- `EpochArray.durations` for a non-empty array (objects.py line 207):
`self.time[:, 1] - self.time[:, 0]`. -/
def durations (e : EpochArray) : List ℚ :=
  e.time.map (fun p => p.2 - p.1)

/-- `EpochArray.copy` (objects.py lines 286-290): rebuild from the raw
sample starts with `duration = stops - starts`, keeping `fs`. -/
def copy (e : EpochArray) : Except Err EpochArray :=
  epochFromStartsDurs (e.samples.map Prod.fst)
    (e.samples.map (fun p => p.2 - p.1)) e.fs

/-- One iteration of the `for i in range(epoch.time.shape[0] - 1)` loop of
`EpochArray.merge` (objects.py lines 385-390).  The fold state is
`(next_stop, new_starts, new_stops)`.  Note the source's two quirks,
modelled exactly: the running `next_stop` is extended with `this_stop =
stops[i]` (not `stops[i + 1]`), and the close test `to_merge[i]` compares
`stops[i] + gap` against `starts[i + 1]` (line 377-379), ignoring the
running maximum. -/
def mergeStep (starts stops : List ℚ) (gap : ℚ)
    (st : ℚ × List ℚ × List ℚ) (i : ℕ) : ℚ × List ℚ × List ℚ :=
  let thisStop := stops.getD i 0
  let nextStop := max st.1 thisStop
  if stops.getD i 0 + gap - starts.getD (i + 1) 0 ≥ 0 then
    (nextStop, st.2.1, st.2.2)
  else
    (nextStop, st.2.1 ++ [starts.getD (i + 1) 0], st.2.2 ++ [nextStop])

/-- `EpochArray.merge` (objects.py lines 355-397): identity on the empty
array; negative `gap` raises `ValueError`; otherwise the array is copied,
`gap` is converted to sample units when `fs` is set (line 374-375), the
single pass over consecutive pairs runs, the last raw stop is appended
(line 392), and the result is rebuilt from starts plus durations. -/
def merge (e : EpochArray) (gap : ℚ) : Except Err EpochArray :=
  if e.time = [] then .ok e
  else if gap < 0 then .error (.valueError "gap cannot be negative")
  else
    match copy e with
    | .error er => .error er
    | .ok ep =>
      let g := match e.fs with | some f => gap * f | none => gap
      let starts := ep.samples.map Prod.fst
      let stops := ep.samples.map Prod.snd
      let n := starts.length
      let res := (List.range (n - 1)).foldl (mergeStep starts stops g)
        (stops.getD 0 0, [starts.getD 0 0], [])
      let newStarts := res.2.1
      let newStops := res.2.2 ++ [stops.getD (n - 1) 0]
      epochFromStartsDurs newStarts
        (List.zipWith (fun a b => a - b) newStops newStarts) e.fs

/-- Classification of one pair `(aa, bb)` of merged time intervals inside
`EpochArray.intersect` (objects.py lines 314-337), with Python's chained
comparisons spelled out.  Returns the emitted `(start, stop)` pair, if
any. -/
def classify (boundaries : Bool) (aa bb : ℚ × ℚ) : Option (ℚ × ℚ) :=
  if aa.1 ≤ bb.1 ∧ bb.1 < aa.2 ∧ aa.1 < bb.2 ∧ bb.2 ≤ aa.2 then
    some (bb.1, bb.2)
  else if aa.1 < bb.1 ∧ bb.1 < aa.2 ∧ aa.1 < bb.2 ∧ bb.2 > aa.2 then
    some (bb.1, if boundaries then aa.2 else bb.2)
  else if aa.1 > bb.1 ∧ bb.1 < aa.2 ∧ aa.1 < bb.2 ∧ bb.2 < aa.2 then
    some (if boundaries then aa.1 else bb.1, bb.2)
  else if aa.1 ≥ bb.1 ∧ bb.1 < aa.2 ∧ aa.1 < bb.2 ∧ bb.2 ≥ aa.2 then
    some (if boundaries then aa.1 else bb.1, if boundaries then aa.2 else bb.2)
  else none

/-- `np.unique` on a 1-D array: sorted ascending with duplicates removed
(objects.py lines 340-341). -/
def npUnique (l : List ℚ) : List ℚ :=
  (l.insertionSort (fun a b : ℚ => a ≤ b)).dedup

/-- `EpochArray.intersect` (objects.py lines 292-353): empty result when
either operand is empty; both operands are `copy().merge()`-ed; the double
loop over time intervals collects emitted starts/stops; with
`boundaries=False` the start and stop collections are independently
`np.unique`-d and re-paired positionally; finally the result is rebuilt —
rate-free from the time pairs when the operands' rates differ or `self` has
none, else from `time * fs` with `fs` kept. -/
def intersect (x y : EpochArray) (boundaries : Bool) :
    Except Err EpochArray :=
  if x.time = [] ∨ y.time = [] then .ok emptyEpoch
  else
    match copy x with
    | .error er => .error er
    | .ok cx =>
      match merge cx 0 with
      | .error er => .error er
      | .ok a =>
        match copy y with
        | .error er => .error er
        | .ok cy =>
          match merge cy 0 with
          | .error er => .error er
          | .ok b =>
            let outs :=
              (a.time.map (fun aa => b.time.filterMap (classify boundaries aa))).flatten
            let pairs :=
              if boundaries then outs
              else (npUnique (outs.map Prod.fst)).zip (npUnique (outs.map Prod.snd))
            if x.fs ≠ y.fs then epochFromPairs pairs none
            else
              match x.fs with
              | none => epochFromPairs pairs none
              | some f =>
                  epochFromPairs (pairs.map (fun p => (p.1 * f, p.2 * f)))
                    (some f)

/-- The `direction` argument of `expand`/`shrink`; other strings raise
`ValueError` in `expand` (objects.py line 422) and are outside the claims
considered here. -/
inductive Dir where
  | both
  | start
  | stop
deriving DecidableEq, Repr

/-- `EpochArray.expand` (objects.py lines 399-425): moves the time starts
and/or stops by `amount` and rebuilds via the constructor — with no `fs`
argument, so the result is validated (`stop >= start`) and rate-free. -/
def expand (e : EpochArray) (amount : ℚ) (dir : Dir) :
    Except Err EpochArray :=
  epochFromPairs (e.time.map (fun p =>
    match dir with
    | .both => (p.1 - amount, p.2 + amount)
    | .start => (p.1 - amount, p.2)
    | .stop => (p.1, p.2 + amount))) none

/-- Python's `min` over a non-empty list (`min(self.durations)`, objects.py
lines 440 and 444).  On the empty `EpochArray`, `self.durations` is the
scalar `0` and `min(0)` raises `TypeError`. -/
def listMin : List ℚ → ℚ
  | [] => 0
  | [x] => x
  | x :: y :: xs => min x (listMin (y :: xs))

/-- `EpochArray.shrink` (objects.py lines 427-448): `amount` over half the
shortest duration raises for `direction='both'`; `amount` over the shortest
duration raises for a single-sided direction; otherwise delegates to
`expand(-amount, direction)`. -/
def shrink (e : EpochArray) (amount : ℚ) (dir : Dir) :
    Except Err EpochArray :=
  if e.time = [] then .error (.typeError "int object is not iterable")
  else
    let bothLimit := listMin ((durations e).map (fun d => d / 2))
    if bothLimit < amount ∧ dir = Dir.both then
      .error (.valueError "shrink amount too large")
    else
      let singleLimit := listMin (durations e)
      if singleLimit < amount ∧ dir ≠ Dir.both then
        .error (.valueError "shrink amount too large")
      else expand e (-amount) dir

/-- Resolution of a Python integer index against a sequence of length `n`:
negative indices count from the end; the result is the in-range position,
or `none` for the out-of-range `IndexError` case. -/
def pyIdx (n : ℕ) (i : ℤ) : Option ℕ :=
  let k : ℤ := if i < 0 then i + n else i
  if 0 ≤ k ∧ k < n then some k.toNat else none

/-- Resolution of a Python slice bound against length `n`: negative bounds
count from the end (floored at 0), positive bounds are capped at `n`. -/
def pyBound (n : ℕ) (i : ℤ) : ℕ :=
  if i < 0 then ((n : ℤ) + i).toNat else min i.toNat n

/-- `l[a:b]` for integer bounds (step 1). -/
def pySlice {α : Type} (l : List α) (a b : ℤ) : List α :=
  let lo := pyBound l.length a
  let hi := pyBound l.length b
  (l.drop lo).take (hi - lo)

/-- `l[a:b]` where either bound may be omitted. -/
def pySliceOpt {α : Type} (l : List α) (a b : Option ℤ) : List α :=
  let lo := match a with | none => 0 | some i => pyBound l.length i
  let hi := match b with | none => l.length | some i => pyBound l.length i
  (l.drop lo).take (hi - lo)

/-- `EpochArray.__getitem__` with an `int` index (objects.py lines
135-141): build a singleton `EpochArray` from row `idx` of `samples`,
keeping `fs`; any exception (in particular `IndexError` from an
out-of-range index) is caught by the bare `except` and the empty
`EpochArray` is returned instead. -/
def epochGetInt (e : EpochArray) (i : ℤ) : EpochArray :=
  match pyIdx e.samples.length i with
  | none => emptyEpoch
  | some k =>
      match epochFromPairs [e.samples.getD k (0, 0)] e.fs with
      | .ok r => r
      | .error _ => emptyEpoch

/-- `EpochArray.__getitem__` with a `slice` index (objects.py lines
142-154): a missing start is 0; a start at or past `n_epochs` returns the
empty array; a missing stop becomes the sentinel `-1` while a given stop
becomes `min(stop - 1, n_epochs - 1)`; rows `samples[start : stop + 1]`
are then fed back through the constructor with the same `fs`.  (When the
selected row list is empty, the numpy path flows through the full
constructor and keeps `fs`, modelled by the explicit empty-rows case.) -/
def epochGetSlice (e : EpochArray) (a b : Option ℤ) :
    Except Err EpochArray :=
  let start : ℤ := a.getD 0
  if (e.time.length : ℤ) ≤ start then .ok emptyEpoch
  else
    let stop : ℤ := match b with
      | none => -1
      | some s => min (s - 1) ((e.time.length : ℤ) - 1)
    let rows := pySlice e.samples start (stop + 1)
    if rows = [] then .ok ⟨[], [], e.fs⟩
    else epochFromPairs rows e.fs

/-- The state of a constructed `SpikeTrain`: raw samples, derived times,
owned support, and the stored rate. -/
structure SpikeTrain where
  samples : List ℚ
  time : List ℚ
  support : EpochArray
  fs : Option ℚ
deriving DecidableEq, Repr

/-- `self.time = samples / fs` for the 1-D spike vector (objects.py lines
564-567). -/
def applyFsV (fs : Option ℚ) (xs : List ℚ) : List ℚ :=
  match fs with
  | none => xs
  | some f => xs.map (fun x => x / f)

/-- Keep the entries of `xs` whose mask bit is true (`samples[indices]`
with a boolean index array). -/
def maskFilter (xs : List ℚ) (mask : List Bool) : List ℚ :=
  ((xs.zip mask).filter (fun p => p.2)).map (fun p => p.1)

/-- `SpikeTrain.__init__` (objects.py lines 544-597): the `fs` check runs
first (with the same swallowed-`ValueError` behaviour as `EpochArray`),
times are derived, and then: empty samples give the empty train with empty
support; with no explicit support, the support becomes
`EpochArray(np.array([0, samples[-1]]), fs=fs)` — the 1-D length-2
constructor path, i.e. the single interval `[0, last sample]` (the
docstring's "Default is [0, last spike]"); with an explicit support, each
time is tested for membership in any support interval (inclusive bounds,
lines 576-581; `np.column_stack` of zero index arrays raises on an empty
support) and failing points are dropped. -/
def spikeTrainInit (samples : List ℚ) (fs : Option ℚ)
    (support : Option EpochArray) : Except Err SpikeTrain :=
  match checkFsOpt fs with
  | .error er => .error er
  | .ok _ =>
    let time := applyFsV fs samples
    if hs : samples = [] then .ok ⟨[], [], emptyEpoch, fs⟩
    else
      match support with
      | none =>
          match epochFrom1D [0, samples.getLast hs] fs with
          | .error er => .error er
          | .ok sup => .ok ⟨samples, time, sup, fs⟩
      | some sup =>
          if sup.time = [] then
            .error (.valueError "need at least one array to stack")
          else
            let mask := time.map (fun t =>
              sup.time.any (fun p => decide (p.1 ≤ t) && decide (t ≤ p.2)))
            .ok ⟨maskFilter samples mask, maskFilter time mask, sup, fs⟩

/-- `SpikeTrain.__getitem__` with a `slice` index (objects.py lines
649-672): a missing start is 0; a start at or past `n_spikes` returns
`SpikeTrain([], fs=self.fs, support=None)`; otherwise the stop sentinel is
computed as in the `EpochArray` slice path, a support interval is built
from `[samples[start], samples[stop]]` (1-D length-2 constructor path,
uncaught exceptions propagate), and the sliced samples are rebuilt with
that support. -/
def spikeGetSlice (st : SpikeTrain) (a b : Option ℤ) :
    Except Err SpikeTrain :=
  let start : ℤ := a.getD 0
  if (st.time.length : ℤ) ≤ start then spikeTrainInit [] st.fs none
  else
    let stop : ℤ := match b with
      | none => -1
      | some s => min (s - 1) ((st.time.length : ℤ) - 1)
    match pyIdx st.samples.length start with
    | none => .error .indexError
    | some ka =>
      match pyIdx st.samples.length stop with
      | none => .error .indexError
      | some kb =>
        match epochFrom1D [st.samples.getD ka 0, st.samples.getD kb 0] st.fs with
        | .error er => .error er
        | .ok ep => spikeTrainInit (pySliceOpt st.samples a b) st.fs (some ep)

/-- Python's `min` bounds a list from below exactly when every element
does. -/
theorem le_listMin_iff : ∀ (l : List ℚ), l ≠ [] → ∀ a : ℚ,
    (a ≤ listMin l ↔ ∀ x ∈ l, a ≤ x)
  | [], h, _ => absurd rfl h
  | [x], _, a => by simp [listMin]
  | x :: y :: ys, _, a => by
      have ih := le_listMin_iff (y :: ys) (by simp) a
      simp only [listMin, le_min_iff, ih, List.forall_mem_cons]

/-- Halving every element halves the minimum (`min(self.durations / 2)` =
`min(self.durations) / 2`). -/
theorem listMin_map_half : ∀ l : List ℚ,
    listMin (l.map (fun d => d / 2)) = listMin l / 2
  | [] => by simp [listMin]
  | [x] => by simp [listMin]
  | x :: y :: ys => by
      have ih := listMin_map_half (y :: ys)
      simp only [List.map_cons, listMin] at ih ⊢
      rw [ih]
      rcases le_total x (listMin (y :: ys)) with h | h
      · rw [min_eq_left (by linarith), min_eq_left h]
      · rw [min_eq_right (by linarith), min_eq_right h]

/-- The rate-free constructor succeeds on any all-valid pair list, returning
the sorted pairs with time equal to samples. -/
theorem epochFromPairs_none_ok (pairs : List (ℚ × ℚ))
    (h : ∀ p ∈ pairs, p.1 ≤ p.2) :
    epochFromPairs pairs none =
      .ok ⟨sortByStart pairs, sortByStart pairs, none⟩ := by
  by_cases hp : pairs = []
  · subst hp; rfl
  · unfold epochFromPairs
    rw [if_neg hp]
    have hall : pairs.all (fun p => decide (p.1 ≤ p.2)) = true := by
      simp only [List.all_eq_true, decide_eq_true_eq]; exact h
    simp [checkFsOpt, hall, applyFs]

/-- Re-zipping a pair list from its two projections is the identity. -/
theorem zip_fst_snd : ∀ l : List (ℚ × ℚ),
    (l.map Prod.fst).zip (l.map Prod.snd) = l
  | [] => rfl
  | p :: ps => by
      cases p
      simp [zip_fst_snd ps]

/-- Adding back the durations to the starts recovers the stops. -/
theorem zipWith_starts_durs : ∀ l : List (ℚ × ℚ),
    List.zipWith (fun s d => s + d) (l.map Prod.fst)
      (l.map (fun p => p.2 - p.1)) = l.map Prod.snd
  | [] => rfl
  | p :: ps => by
      simp [zipWith_starts_durs ps]

/-- C1: counter-evidence.  On the valid sorted input
`[[0,100],[10,20],[30,40]]` (no rate), `merge(gap=0)` returns
`[[0,100],[30,40]]` — whose second interval starts at 30, inside the first
interval and so within gap 0 of its stop 100, violating the claimed
non-overlap guarantee — and merging that result again returns `[[0,40]]`,
a different interval list, violating the claimed idempotence
(`merge(merge(x)) != merge(x)`). -/
theorem c1_merge_gap0_overlapping_not_idempotent :
    epochFromPairs [((0 : ℚ), (100 : ℚ)), (10, 20), (30, 40)] none =
      .ok ⟨[(0, 100), (10, 20), (30, 40)], [(0, 100), (10, 20), (30, 40)],
        none⟩ ∧
    merge ⟨[((0 : ℚ), (100 : ℚ)), (10, 20), (30, 40)],
        [(0, 100), (10, 20), (30, 40)], none⟩ 0 =
      .ok ⟨[(0, 100), (30, 40)], [(0, 100), (30, 40)], none⟩ ∧
    merge ⟨[((0 : ℚ), (100 : ℚ)), (30, 40)], [(0, 100), (30, 40)], none⟩ 0 =
      .ok ⟨[(0, 40)], [(0, 40)], none⟩ ∧
    ((30 : ℚ) < 100 ∧
      ([((0 : ℚ), (100 : ℚ)), (30, 40)] : List (ℚ × ℚ)) ≠ [(0, 40)]) := by
  refine ⟨by decide, ?_, ?_, by decide⟩
  · norm_num [merge, copy, epochFromStartsDurs, epochFromPairs, mergeStep,
      checkFsOpt, checkFsArg, sortByStart, applyFs, List.insertionSort,
      List.orderedInsert, leStart, List.cons_ne_nil, List.range_succ,
      List.getD]
  · norm_num [merge, copy, epochFromStartsDurs, epochFromPairs, mergeStep,
      checkFsOpt, checkFsArg, sortByStart, applyFs, List.insertionSort,
      List.orderedInsert, leStart, List.cons_ne_nil, List.range_succ,
      List.getD]

/-- C2: counter-evidence.  A 1-D vector of three start values with no
duration does not become three zero-length point intervals: the
constructor's `hstack` of the first two rows of the `(n,1)` array (objects.py
lines 83-85) produces the single interval `[1,2]`, dropping the 3; a
length-one vector raises `IndexError` outright. -/
theorem c2_vector_of_starts_single_interval :
    epochFrom1D [(1 : ℚ), 2, 3] none =
      .ok ⟨[(1, 2)], [(1, 2)], none⟩ ∧
    epochFrom1D [(5 : ℚ)] none = .error .indexError := by
  exact ⟨by decide, by decide⟩

/-- C3: counter-evidence.  The two `fs` failure paths are observably
identical: a non-positive scalar rate and a non-scalar rate both raise
`TypeError("sampling rate must be a scalar")`, because the `ValueError`
raised inside the `try` block is swallowed by the bare `except` (objects.py
lines 53-59 and 553-559); the claimed distinct value-error for the
non-positive case never escapes.  The same `TypeError` is what both
`EpochArray` and `SpikeTrain` construction surface for `fs = -1`. -/
theorem c3_fs_failures_indistinguishable :
    checkFsArg (.scalar (-1)) =
      .error (.typeError "sampling rate must be a scalar") ∧
    checkFsArg .nonScalar =
      .error (.typeError "sampling rate must be a scalar") ∧
    checkFsArg (.scalar (-1)) = checkFsArg .nonScalar ∧
    epochFromPairs [((0 : ℚ), 1)] (some (-1)) =
      .error (.typeError "sampling rate must be a scalar") ∧
    spikeTrainInit [(1 : ℚ)] (some (-1)) none =
      .error (.typeError "sampling rate must be a scalar") := by
  refine ⟨by decide, by decide, by decide, by decide, by decide⟩

/-- C5: counter-evidence.  On a 3-interval array, the slice `[:]` (start
and stop both unspecified) returns the empty `IntervalSet`, not the whole
sub-range through the last interval: the missing stop becomes the sentinel
`-1` and the row selection `samples[start : stop + 1]` = `samples[0:0]`
is empty (objects.py lines 148-154). -/
theorem c5_slice_unspecified_stop_empty :
    epochFromPairs [((0 : ℚ), 1), (2, 3), (4, 5)] none =
      .ok ⟨[(0, 1), (2, 3), (4, 5)], [(0, 1), (2, 3), (4, 5)], none⟩ ∧
    epochGetSlice ⟨[((0 : ℚ), 1), (2, 3), (4, 5)],
        [(0, 1), (2, 3), (4, 5)], none⟩ none none =
      .ok ⟨[], [], none⟩ := by
  exact ⟨by decide, by decide⟩

/-- C6: on `A = [[0,10]]`, `B = [[5,15]]` (both rate-free),
`A.intersect(B, boundaries=True)` is exactly `[[5,10]]` and
`A.intersect(B, boundaries=False)` emits the pair `(5,15)`, i.e. yields
`[[5,15]]`, as the spec's example states. -/
theorem c6_intersect_example :
    epochFromPairs [((0 : ℚ), 10)] none =
      .ok ⟨[(0, 10)], [(0, 10)], none⟩ ∧
    epochFromPairs [((5 : ℚ), 15)] none =
      .ok ⟨[(5, 15)], [(5, 15)], none⟩ ∧
    intersect ⟨[((0 : ℚ), 10)], [(0, 10)], none⟩
        ⟨[((5 : ℚ), 15)], [(5, 15)], none⟩ true =
      .ok ⟨[(5, 10)], [(5, 10)], none⟩ ∧
    intersect ⟨[((0 : ℚ), 10)], [(0, 10)], none⟩
        ⟨[((5 : ℚ), 15)], [(5, 15)], none⟩ false =
      .ok ⟨[(5, 15)], [(5, 15)], none⟩ := by
  refine ⟨by decide, by decide, ?_, ?_⟩
  · norm_num [intersect, merge, copy, epochFromStartsDurs, epochFromPairs,
      mergeStep, checkFsOpt, checkFsArg, sortByStart, applyFs,
      List.insertionSort, List.orderedInsert, leStart, List.cons_ne_nil,
      List.range_succ, List.getD, classify, npUnique]
    intro h
    exact Option.noConfusion h
  · norm_num [intersect, merge, copy, epochFromStartsDurs, epochFromPairs,
      mergeStep, checkFsOpt, checkFsArg, sortByStart, applyFs,
      List.insertionSort, List.orderedInsert, leStart, List.cons_ne_nil,
      List.range_succ, List.getD, classify, npUnique]

/-- C7: for any input pair list accepted by the constructor, the result's
intervals are sorted ascending by start and each satisfies `start ≤ stop`;
and (with a valid rate and a non-empty input) any input pair with
`stop < start` makes the constructor fail with the invalid-interval
`ValueError`. -/
theorem c7_construct_sorted_and_validated (pairs : List (ℚ × ℚ))
    (fs : Option ℚ) :
    (∀ e, epochFromPairs pairs fs = .ok e →
        List.Sorted leStart e.samples ∧ ∀ p ∈ e.samples, p.1 ≤ p.2) ∧
    (checkFsOpt fs = .ok () → pairs ≠ [] → (∃ p ∈ pairs, p.2 < p.1) →
        epochFromPairs pairs fs =
          .error (.valueError "start must be less than or equal to stop")) := by
  constructor
  · intro e he
    by_cases hp : pairs = []
    · subst hp
      have he2 : emptyEpoch = e := Except.ok.inj he
      subst he2
      exact ⟨List.sorted_nil, by intro p hp; cases hp⟩
    · unfold epochFromPairs at he
      rw [if_neg hp] at he
      cases hfs : checkFsOpt fs with
      | error er =>
          simp only [hfs] at he
          exact absurd he (by simp)
      | ok u =>
        simp only [hfs] at he
        by_cases hall : pairs.all (fun p => decide (p.1 ≤ p.2)) = true
        · rw [if_pos hall] at he
          simp only [Except.ok.injEq] at he
          subst he
          refine ⟨List.sorted_insertionSort leStart pairs, ?_⟩
          intro p hpm
          have hpm' : p ∈ pairs := by
            simpa [sortByStart] using hpm
          have := List.all_eq_true.mp hall p hpm'
          simpa using this
        · rw [if_neg hall] at he
          exact absurd he (by simp)
  · intro hfs hne hex
    obtain ⟨p, hpm, hlt⟩ := hex
    have hall : pairs.all (fun p => decide (p.1 ≤ p.2)) = false := by
      rw [List.all_eq_false]
      exact ⟨p, hpm, by simp; linarith⟩
    unfold epochFromPairs
    rw [if_neg hne]
    simp only [hfs, hall]
    simp

/-- C7 witness: constructing from the unsorted valid input
`[[1,2],[0,5]]` yields the start-sorted list `[[0,5],[1,2]]`, and the
single inverted pair `[[2,1]]` is rejected with the invalid-interval
error. -/
theorem c7_witness :
    List.Sorted leStart [((0 : ℚ), (5 : ℚ)), ((1 : ℚ), (2 : ℚ))] ∧
    epochFromPairs [((2 : ℚ), (1 : ℚ))] none =
      .error (.valueError "start must be less than or equal to stop") := by
  constructor
  · exact ((c7_construct_sorted_and_validated
      [((1 : ℚ), (2 : ℚ)), ((0 : ℚ), (5 : ℚ))] none).1
      ⟨[(0, 5), (1, 2)], [(0, 5), (1, 2)], none⟩ (by decide)).1
  · exact (c7_construct_sorted_and_validated [((2 : ℚ), (1 : ℚ))] none).2
      (by decide) (by decide) ⟨(2, 1), by decide, by decide⟩

/-- The constructor is the identity on a non-empty, already-sorted,
all-valid pair list (given a valid rate argument). -/
theorem epochFromPairs_ok_sorted (S : List (ℚ × ℚ)) (fs : Option ℚ)
    (hS : S ≠ []) (hfs : checkFsOpt fs = .ok ())
    (hvalid : ∀ q ∈ S, q.1 ≤ q.2) (hsorted : List.Sorted leStart S) :
    epochFromPairs S fs = .ok ⟨S, applyFs fs S, fs⟩ := by
  have hall : S.all (fun p => decide (p.1 ≤ p.2)) = true := by
    simp only [List.all_eq_true, decide_eq_true_eq]
    exact hvalid
  unfold epochFromPairs
  rw [if_neg hS]
  simp only [hfs, hall, if_true, sortByStart]
  rw [List.Sorted.insertionSort_eq hsorted]

/-- Rebuilding a sorted, valid pair list from its starts and durations (the
`copy` recipe) reproduces it exactly. -/
theorem epochFromStartsDurs_roundtrip (S : List (ℚ × ℚ)) (fs : Option ℚ)
    (hS : S ≠ []) (hfs : checkFsOpt fs = .ok ())
    (hvalid : ∀ q ∈ S, q.1 ≤ q.2) (hsorted : List.Sorted leStart S) :
    epochFromStartsDurs (S.map Prod.fst) (S.map (fun p => p.2 - p.1)) fs =
      .ok ⟨S, applyFs fs S, fs⟩ := by
  have hstops : (if (S.map (fun p => p.2 - p.1)).length = 1
      then (S.map Prod.fst).map
        (fun s => s + (S.map (fun p => p.2 - p.1)).getD 0 0)
      else List.zipWith (fun s d => s + d) (S.map Prod.fst)
        (S.map (fun p => p.2 - p.1))) = S.map Prod.snd := by
    match S, hS with
    | [p], _ => simp
    | p :: q :: qs, _ => simp [zipWith_starts_durs]
  have h1 : ¬(1 < (S.map (fun p => p.2 - p.1)).length ∧
      (S.map Prod.fst).length ≠ (S.map (fun p => p.2 - p.1)).length) := by
    simp
  have h2 : ¬(S.map (fun p => p.2 - p.1) = []) := by simpa using hS
  unfold epochFromStartsDurs
  rw [if_neg (by simpa using hS)]
  simp only [hfs]
  rw [if_neg h1, if_neg h2, hstops, zip_fst_snd]
  exact epochFromPairs_ok_sorted S fs hS hfs hvalid hsorted

/-- C10: for any non-empty `EpochArray` produced by the constructor,
`copy()` returns a structurally identical array — same raw sample pairs,
same time coordinates, same rate.  (The embedding is value-oriented:
`copy` reads but never writes its argument, so the original is unchanged
by construction.) -/
theorem c10_copy_roundtrip (pairs : List (ℚ × ℚ)) (fs : Option ℚ)
    (e : EpochArray) (h : epochFromPairs pairs fs = .ok e)
    (hne : e.samples ≠ []) :
    copy e = .ok e := by
  by_cases hp : pairs = []
  · subst hp
    have h2 : emptyEpoch = e := Except.ok.inj h
    rw [← h2] at hne
    simp [emptyEpoch] at hne
  · unfold epochFromPairs at h
    rw [if_neg hp] at h
    cases hfs : checkFsOpt fs with
    | error er =>
        simp only [hfs] at h
        exact absurd h (by simp)
    | ok u =>
      simp only [hfs] at h
      by_cases hall : pairs.all (fun p => decide (p.1 ≤ p.2)) = true
      · rw [if_pos hall] at h
        simp only [Except.ok.injEq] at h
        subst h
        have hvalid : ∀ q ∈ sortByStart pairs, q.1 ≤ q.2 := by
          intro q hq
          have hq' : q ∈ pairs := by simpa [sortByStart] using hq
          simpa using List.all_eq_true.mp hall q hq'
        have hsorted : List.Sorted leStart (sortByStart pairs) :=
          List.sorted_insertionSort leStart pairs
        have hS : sortByStart pairs ≠ [] := hne
        exact epochFromStartsDurs_roundtrip (sortByStart pairs) fs hS
          (by cases u; exact hfs) hvalid hsorted
      · rw [if_neg hall] at h
        exact absurd h (by simp)

/-- C10 witness: copying the array built from `[[1,2],[0,5]]` (stored
sorted as `[[0,5],[1,2]]`) reproduces it exactly. -/
theorem c10_witness :
    copy ⟨[((0 : ℚ), (5 : ℚ)), ((1 : ℚ), (2 : ℚ))], [(0, 5), (1, 2)],
        none⟩ =
      .ok ⟨[(0, 5), (1, 2)], [(0, 5), (1, 2)], none⟩ :=
  c10_copy_roundtrip [((1 : ℚ), (2 : ℚ)), ((0 : ℚ), (5 : ℚ))] none
    ⟨[(0, 5), (1, 2)], [(0, 5), (1, 2)], none⟩ (by decide) (by decide)

/-- C4: counter-evidence.  The default support of the point sequence
`[1,2,3]` (no rate, no explicit support) is the single interval `[0,3]` —
from 0 to the last point (objects.py line 571, matching the docstring
"Default is [0, last spike]") — not `[1,3]` from the first point as the
claim states. -/
theorem c4_default_support_counterexample :
    (spikeTrainInit [(1 : ℚ), 2, 3] none none).map
        (fun st => st.support.samples) = .ok [(0, 3)] ∧
    (spikeTrainInit [(1 : ℚ), 2, 3] none none).map
        (fun st => st.support.samples) ≠ .ok [(1, 3)] := by
  exact ⟨by decide, by decide⟩

/-- C4 (amended): for every non-empty point sequence constructed without an
explicit support, the default support is the single interval from 0 to the
last point of the sequence. -/
theorem c4_amended_default_support (samples : List ℚ) (fs : Option ℚ)
    (st : SpikeTrain) (h : spikeTrainInit samples fs none = .ok st)
    (hne : samples ≠ []) :
    st.support.samples = [(0, samples.getLast hne)] := by
  unfold spikeTrainInit at h
  cases hfs : checkFsOpt fs with
  | error er =>
      simp only [hfs] at h
      exact absurd h (by simp)
  | ok u =>
    simp only [hfs] at h
    rw [dif_neg hne] at h
    unfold epochFrom1D at h
    simp only [hfs] at h
    by_cases hlast : samples.getLast hne < 0
    · rw [if_pos hlast] at h
      exact absurd h (by simp)
    · rw [if_neg hlast] at h
      simp only [Except.ok.injEq] at h
      subst h
      simp [sortByStart, List.insertionSort, List.orderedInsert]

/-- C4 witness: the point sequence `[1,2,3]` gets default support
`[[0,3]]`. -/
theorem c4_witness :
    (⟨[(1 : ℚ), 2, 3], [(1 : ℚ), 2, 3],
        ⟨[((0 : ℚ), (3 : ℚ))], [((0 : ℚ), (3 : ℚ))], none⟩,
        none⟩ : SpikeTrain).support.samples = [((0 : ℚ), (3 : ℚ))] := by
  have := c4_amended_default_support [(1 : ℚ), 2, 3] none
    ⟨[(1 : ℚ), 2, 3], [(1 : ℚ), 2, 3],
      ⟨[((0 : ℚ), (3 : ℚ))], [((0 : ℚ), (3 : ℚ))], none⟩, none⟩
    (by decide) (by decide)
  exact this.trans (by decide)

/-- C8: integer indexing an `IntervalSet` outside Python's valid index
range `[-n, n)` returns the empty set without raising, and slicing an
`EventSequence` with a start at or beyond the number of points returns the
empty sequence (carrying the original rate) without raising. -/
theorem c8_out_of_range_indexing (e : EpochArray) (i : ℤ) (st : SpikeTrain)
    (a : ℤ) (b : Option ℤ)
    (hi : i < -(e.samples.length : ℤ) ∨ (e.samples.length : ℤ) ≤ i)
    (ha : (st.time.length : ℤ) ≤ a)
    (hfs : checkFsOpt st.fs = .ok ()) :
    epochGetInt e i = emptyEpoch ∧
    spikeGetSlice st (some a) b = .ok ⟨[], [], emptyEpoch, st.fs⟩ := by
  constructor
  · unfold epochGetInt
    have hidx : pyIdx e.samples.length i = none := by
      unfold pyIdx
      by_cases hneg : i < 0
      · rw [if_pos hneg, if_neg (by omega)]
      · rw [if_neg hneg, if_neg (by omega)]
    rw [hidx]
  · unfold spikeGetSlice
    rw [if_pos (by simpa using ha)]
    unfold spikeTrainInit
    simp only [hfs]
    rfl

/-- C8 witness: index 999 on a 3-interval set gives the empty set; slice
`[100:200]` on a 5-point sequence gives the empty sequence. -/
theorem c8_witness :
    epochGetInt ⟨[((0 : ℚ), 1), (2, 3), (4, 5)], [(0, 1), (2, 3), (4, 5)],
        none⟩ 999 = emptyEpoch ∧
    spikeGetSlice ⟨[(1 : ℚ), 2, 3, 4, 5], [(1 : ℚ), 2, 3, 4, 5],
        ⟨[((0 : ℚ), (5 : ℚ))], [((0 : ℚ), (5 : ℚ))], none⟩, none⟩
        (some 100) (some 200) = .ok ⟨[], [], emptyEpoch, none⟩ :=
  c8_out_of_range_indexing
    ⟨[((0 : ℚ), 1), (2, 3), (4, 5)], [(0, 1), (2, 3), (4, 5)], none⟩ 999
    ⟨[(1 : ℚ), 2, 3, 4, 5], [(1 : ℚ), 2, 3, 4, 5],
      ⟨[((0 : ℚ), (5 : ℚ))], [((0 : ℚ), (5 : ℚ))], none⟩, none⟩
    100 (some 200) (Or.inr (by decide)) (by decide) (by decide)

/-- C9: on any non-empty `EpochArray`, `shrink(amount, 'both')` raises the
invalid-argument `ValueError` exactly when `amount` exceeds half the
shortest interval duration, and `shrink(amount, d)` for a single-sided
direction `d` raises exactly when `amount` exceeds the shortest full
duration. -/
theorem c9_shrink_feasibility (e : EpochArray) (he : e.time ≠ [])
    (amount : ℚ) :
    (shrink e amount .both = .error (.valueError "shrink amount too large")
        ↔ listMin (durations e) / 2 < amount) ∧
    ∀ d : Dir, d ≠ .both →
      (shrink e amount d = .error (.valueError "shrink amount too large")
          ↔ listMin (durations e) < amount) := by
  have hd : durations e ≠ [] := by
    simpa [durations] using he
  have hbl : listMin ((durations e).map (fun d => d / 2)) =
      listMin (durations e) / 2 := listMin_map_half _
  have hlb : ∀ x ∈ durations e, listMin (durations e) ≤ x :=
    (le_listMin_iff _ hd _).mp le_rfl
  constructor
  · by_cases hlt : listMin (durations e) / 2 < amount
    · unfold shrink
      rw [if_neg he, if_pos ⟨by rw [hbl]; exact hlt, rfl⟩]
      simp [hlt]
    · unfold shrink
      rw [if_neg he, if_neg (by rw [hbl]; exact fun hc => hlt hc.1),
        if_neg (fun hc => hc.2 rfl)]
      unfold expand
      rw [epochFromPairs_none_ok _ ?_]
      · simp [hlt]
      · intro q hq
        obtain ⟨p, hp, rfl⟩ := List.mem_map.mp hq
        have hmem : p.2 - p.1 ∈ durations e := List.mem_map.mpr ⟨p, hp, rfl⟩
        have := hlb _ hmem
        push_neg at hlt
        show p.1 - -amount ≤ p.2 + -amount
        linarith
  · intro d hdne
    by_cases hlt : listMin (durations e) < amount
    · unfold shrink
      rw [if_neg he, if_neg (fun hc => hdne hc.2), if_pos ⟨hlt, hdne⟩]
      simp [hlt]
    · unfold shrink
      rw [if_neg he, if_neg (fun hc => hdne hc.2),
        if_neg (fun hc => hlt hc.1)]
      unfold expand
      rw [epochFromPairs_none_ok _ ?_]
      · simp [hlt]
      · intro q hq
        obtain ⟨p, hp, rfl⟩ := List.mem_map.mp hq
        have hmem : p.2 - p.1 ∈ durations e := List.mem_map.mpr ⟨p, hp, rfl⟩
        have := hlb _ hmem
        push_neg at hlt
        cases d with
        | both => exact absurd rfl hdne
        | start =>
            show p.1 - -amount ≤ p.2
            linarith
        | stop =>
            show p.1 ≤ p.2 + -amount
            linarith

/-- C9 witness: on the single interval `[0,10]` (half duration 5),
`shrink(6, 'both')` raises, and `shrink(11, 'start')` (full duration 10)
raises. -/
theorem c9_witness :
    shrink ⟨[((0 : ℚ), 10)], [(0, 10)], none⟩ 6 .both =
      .error (.valueError "shrink amount too large") ∧
    shrink ⟨[((0 : ℚ), 10)], [(0, 10)], none⟩ 11 .start =
      .error (.valueError "shrink amount too large") := by
  constructor
  · exact (c9_shrink_feasibility ⟨[((0 : ℚ), 10)], [(0, 10)], none⟩
      (by decide) 6).1.mpr (by norm_num [durations, listMin])
  · exact ((c9_shrink_feasibility ⟨[((0 : ℚ), 10)], [(0, 10)], none⟩
      (by decide) 11).2 .start (by decide)).mpr
      (by norm_num [durations, listMin])

end Nelpy
